import Mathlib

/-!
Shallow embedding of `pyspark/databricks/utils/PostImportHook.py`, the
post/pre/error import-hook mechanism (a modified copy of wrapt's importer).

Modelling choices:
* A hook is identified by a numeric id together with a flag saying whether
  invoking it raises an exception.  Invoking a hook is recorded as a trace
  event `(hook id, argument string)`; for post-import hooks the argument is
  the module's `__name__`, for pre/error hooks it is the module name.
* The three hook dictionaries (`_post_import_hooks`, `_pre_import_hooks`,
  `_import_error_hooks`) are association lists from module name to a list of
  hooks: a missing key is Python's "name not in dict", `some []` is the
  empty-list fired sentinel, `some (h :: t)` is a pending entry.
* `sys.modules` is modelled by the list of names of loaded modules.
* Execution is single-threaded, so the `threading.RLock` acquisitions are
  no-ops and `ImportHookFinder._local.in_progress` is a single set
  (modelled as a list of names).
* Python exceptions are explicit: `RuntimeError` from registration
  conflicts, `KeyError` from the `sys.modules[name]` subscript, and a
  generic marker for an exception raised by a hook itself.
* `importlib.util.find_spec` is an environment parameter
  `env : String → Option ModuleSpec`; `none` covers both "no spec found"
  and an `ImportError`/`AttributeError` escaping from it, which the code
  treats identically (both lead to `notify_module_import_error`).
-/

/-- A hook callback: identified by `id`; `raises` says whether calling it
raises an exception. -/
structure Hook where
  id : Nat
  raises : Bool
deriving DecidableEq, Repr

/-- One trace event: hook `id` invoked with string argument `arg`. -/
structure FireEvent where
  id : Nat
  arg : String
deriving DecidableEq, Repr

abbrev Trace := List FireEvent

/-- Python exceptions that the embedded functions can raise. -/
inductive PyErr
  | runtimeError   -- `RuntimeError` from `register_generic_import_hook`
  | keyError       -- `KeyError` from `sys.modules[name]`
  | hookError      -- an exception raised by a hook callback
deriving DecidableEq, Repr

/-- A hook dictionary (`_post_import_hooks` etc.): association list from
module name to hook list.  Key absent = Python `name not in dict`;
`some []` = fired sentinel; `some (h :: t)` = pending hooks. -/
abbrev Registry := List (String × List Hook)

namespace Registry

/-- `d.get(name)` on a Python dict. -/
def get? (r : Registry) (n : String) : Option (List Hook) :=
  match r with
  | [] => none
  | (k, v) :: t => if k = n then some v else get? t n

/-- `d[name] = hs` on a Python dict (overwrite or add). -/
def set (r : Registry) (n : String) (hs : List Hook) : Registry :=
  match r with
  | [] => [(n, hs)]
  | (k, v) :: t => if k = n then (n, hs) :: t else (k, v) :: set t n hs

/-- `d.pop(name, default)`: remove the key if present.  (A Python dict has
each key at most once; removing every occurrence agrees with that on
duplicate-free association lists.) -/
def erase (r : Registry) (n : String) : Registry :=
  match r with
  | [] => []
  | (k, v) :: t => if k = n then erase t n else (k, v) :: erase t n

end Registry

/-- A Python module object, as far as `notify_module_loaded` looks at it:
`getattr(module, '__name__', None)`.  `none` models both a missing
`__name__` attribute and a `__name__` of `None`. -/
structure PyModule where
  nameAttr : Option String
deriving DecidableEq, Repr

/-- The result of `importlib.util.find_spec`: an abstract module spec. -/
structure ModuleSpec where
  specName : String
deriving DecidableEq, Repr

/-- The process-wide mutable state of the module. -/
structure HookState where
  post_import_hooks : Registry
  pre_import_hooks : Registry
  import_error_hooks : Registry
  /-- names of modules present in `sys.modules` -/
  sysModules : List String
  /-- `ImportHookFinder`'s per-thread `in_progress` set -/
  inProgress : List String
  /-- `_import_hook_finder_init` -/
  finderInit : Bool
deriving DecidableEq, Repr

/-- The empty starting state: no hooks registered, nothing loaded. -/
def HookState.empty : HookState :=
  { post_import_hooks := []
    pre_import_hooks := []
    import_error_hooks := []
    sysModules := []
    inProgress := []
    finderInit := false }

/-- Run a list of hooks in order on argument `arg` with no exception
handling (`for hook in hooks: hook(module)`): each hook up to and
including the first raising one is invoked; a raising hook aborts the
loop with an exception. -/
def runHooks : List Hook → String → Trace × Option PyErr
  | [], _ => ([], none)
  | h :: t, arg =>
    if h.raises then ([⟨h.id, arg⟩], some .hookError)
    else
      let (tr, e) := runHooks t arg
      (⟨h.id, arg⟩ :: tr, e)

/-- `register_generic_import_hook` restricted to its effect on one hook
dictionary: given the dictionary and `sys.modules`, returns the updated
dictionary, the trace of hooks invoked during the call, and any exception
raised.  (The one-time `ImportHookFinder` installation is handled by the
wrappers.) -/
def register_generic_import_hook (hook : Hook) (name : String)
    (hook_dict : Registry) (sysModules : List String)
    (error_handler : Bool) (raise_if_already_registered : Bool) :
    Registry × Trace × Option PyErr :=
  match hook_dict.get? name with
  | none =>
    -- no prior registration for the target module
    if name ∈ sysModules then
      if raise_if_already_registered then
        (hook_dict, [], some .runtimeError)
      else
        -- record the fired sentinel; fire now unless this is an error hook
        let d := hook_dict.set name []
        if error_handler then (d, [], none)
        else if hook.raises then (d, [⟨hook.id, name⟩], some .hookError)
        else (d, [⟨hook.id, name⟩], none)
    else
      (hook_dict.set name [hook], [], none)
  | some [] =>
    -- prior hooks already fired; `module = sys.modules[name]` may KeyError
    if name ∈ sysModules then
      if error_handler then (hook_dict, [], none)
      else if hook.raises then (hook_dict, [⟨hook.id, name⟩], some .hookError)
      else (hook_dict, [⟨hook.id, name⟩], none)
    else
      (hook_dict, [], some .keyError)
  | some hs =>
    -- pending hooks: append
    (hook_dict.set name (hs ++ [hook]), [], none)

/-- `register_post_import_hook(hook, name)`. -/
def register_post_import_hook (hook : Hook) (name : String) (s : HookState) :
    HookState × Trace × Option PyErr :=
  let (reg, tr, e) :=
    register_generic_import_hook hook name s.post_import_hooks s.sysModules false false
  ({ s with post_import_hooks := reg, finderInit := true }, tr, e)

/-- `register_import_error_hook(hook, name)`. -/
def register_import_error_hook (hook : Hook) (name : String) (s : HookState) :
    HookState × Trace × Option PyErr :=
  let (reg, tr, e) :=
    register_generic_import_hook hook name s.import_error_hooks s.sysModules true false
  ({ s with import_error_hooks := reg, finderInit := true }, tr, e)

/-- `register_pre_import_hook(hook, name)`. -/
def register_pre_import_hook (hook : Hook) (name : String) (s : HookState) :
    HookState × Trace × Option PyErr :=
  let (reg, tr, e) :=
    register_generic_import_hook hook name s.pre_import_hooks s.sysModules false true
  ({ s with pre_import_hooks := reg, finderInit := true }, tr, e)

/-- `notify_module_loaded(module)`: if the module has a usable `__name__`
and a non-empty pending entry, swap in the fired sentinel (under the lock)
and then invoke the drained hooks in order. -/
def notify_module_loaded (module : PyModule) (s : HookState) :
    HookState × Trace × Option PyErr :=
  match module.nameAttr with
  | none => (s, [], none)
  | some name =>
    match s.post_import_hooks.get? name with
    | none => (s, [], none)
    | some [] => (s, [], none)   -- falsy: `if not hooks: return`
    | some hs =>
      let s1 := { s with post_import_hooks := s.post_import_hooks.set name [] }
      let (tr, e) := runHooks hs name
      (s1, tr, e)

/-- `notify_module_import_error(module_name)`: pop the entry, invoke the
popped hooks, then (if the pop found an entry and no hook raised) merge
the popped hooks back in front of any newly registered ones. -/
def notify_module_import_error (module_name : String) (s : HookState) :
    HookState × Trace × Option PyErr :=
  match s.import_error_hooks.get? module_name with
  | none => (s, [], none)   -- `pop` returned the default, dict unchanged
  | some hs =>
    let s1 := { s with import_error_hooks := s.import_error_hooks.erase module_name }
    let (tr, e) := runHooks hs module_name
    match e with
    | some err => (s1, tr, some err)   -- exception propagates before re-insert
    | none =>
      let merged := hs ++ ((s1.import_error_hooks.get? module_name).getD [])
      ({ s1 with
          import_error_hooks := s1.import_error_hooks.set module_name merged },
        tr, none)

/-- `ImportHookFinder._find_and_possibly_instrument_spec(fullname)`:
decline unless the name is in the post or error dict; ask the underlying
`find_spec` (via `env`); on failure route to the error-notification path.
(The loader patching on success does not change any registry.) -/
def find_and_possibly_instrument_spec (env : String → Option ModuleSpec)
    (fullname : String) (s : HookState) :
    Option ModuleSpec × HookState × Trace × Option PyErr :=
  if (s.post_import_hooks.get? fullname).isNone ∧
      (s.import_error_hooks.get? fullname).isNone then
    (none, s, [], none)
  else
    match env fullname with
    | none =>
      let (s1, tr, e) := notify_module_import_error fullname s
      (none, s1, tr, e)
    | some spec => (some spec, s, [], none)

/-- `ImportHookFinder.find_spec(fullname, ...)`: decline if the name is in
no registry or is already in progress; otherwise mark it in progress, drain
and fire the pre-import hooks (each exception swallowed), delegate, and
finally un-mark it. -/
def ImportHookFinder.findSpec (env : String → Option ModuleSpec)
    (fullname : String) (s : HookState) :
    Option ModuleSpec × HookState × Trace × Option PyErr :=
  if (s.post_import_hooks.get? fullname).isNone ∧
      (s.pre_import_hooks.get? fullname).isNone ∧
      (s.import_error_hooks.get? fullname).isNone then
    (none, s, [], none)
  else if fullname ∈ s.inProgress then
    (none, s, [], none)
  else
    let s1 := { s with inProgress := fullname :: s.inProgress }
    -- `for hook in _pre_import_hooks.pop(fullname, []):` with per-hook
    -- try/except: every popped hook is invoked, exceptions are swallowed
    let pre := (s1.pre_import_hooks.get? fullname).getD []
    let s2 := { s1 with pre_import_hooks := s1.pre_import_hooks.erase fullname }
    let tr1 : Trace := pre.map (fun h => ⟨h.id, fullname⟩)
    let (res, s3, tr2, e) := find_and_possibly_instrument_spec env fullname s2
    -- `finally: self.in_progress.remove(fullname)`
    let s4 := { s3 with inProgress := s3.inProgress.erase fullname }
    (res, s4, tr1 ++ tr2, e)

/-- The discrete operations a single thread can perform against the hook
state; used to state the registry lifecycle invariant over every entry
point of the module. -/
inductive Op
  | regPost (h : Hook) (n : String)
  | regError (h : Hook) (n : String)
  | regPre (h : Hook) (n : String)
  | notifyLoaded (m : PyModule)
  | notifyError (n : String)
  | intercept (env : String → Option ModuleSpec) (n : String)

/-- The state reached after running one operation (results discarded). -/
def Op.step : Op → HookState → HookState
  | .regPost h n, s => (register_post_import_hook h n s).1
  | .regError h n, s => (register_import_error_hook h n s).1
  | .regPre h n, s => (register_pre_import_hook h n s).1
  | .notifyLoaded m, s => (notify_module_loaded m s).1
  | .notifyError n, s => (notify_module_import_error n s).1
  | .intercept env n, s => (ImportHookFinder.findSpec env n s).2.1

/-- Whether the operation is the interceptor's `find_spec`. -/
def Op.isIntercept : Op → Bool
  | .intercept _ _ => true
  | _ => false

/-- Rank of a registry entry along the lifecycle
absent (0) → non-empty pending (1) → empty fired-sentinel (2). -/
def entryRank : Option (List Hook) → Nat
  | none => 0
  | some (_ :: _) => 1
  | some [] => 2

/-- Every hook stored in the registry is non-raising. -/
def hooksOk (r : Registry) : Prop := ∀ p ∈ r, ∀ h ∈ p.2, h.raises = false

instance (r : Registry) : Decidable (hooksOk r) := by
  unfold hooksOk; infer_instance

/-- A concrete pre-import state for the C9 witness: one raising and one
normal pre-hook pending for `"m"`, nothing in progress. -/
def c9s : HookState :=
  { HookState.empty with pre_import_hooks := [("m", [⟨1, true⟩, ⟨2, false⟩])] }

/-- The drained state the C9 witness delegates from. -/
def c9s2 : HookState :=
  { c9s with
      inProgress := "m" :: c9s.inProgress
      pre_import_hooks := c9s.pre_import_hooks.erase "m" }

/-- The environment for the C9 witness: the underlying finder fails. -/
def c9env : String → Option ModuleSpec := fun _ => none

/-- A concrete state for the C5 witness: a pending success hook for `"m"`
and a pending error hook for `"e"`. -/
def c5s : HookState :=
  { HookState.empty with
      post_import_hooks := [("m", [⟨1, false⟩])]
      import_error_hooks := [("e", [⟨9, false⟩])] }

/-! ### Helper lemmas about the registry operations -/

theorem Registry.get?_set_self (r : Registry) (n : String) (hs : List Hook) :
    (r.set n hs).get? n = some hs := by
  induction r with
  | nil => simp [Registry.set, Registry.get?]
  | cons p t ih =>
    obtain ⟨k, v⟩ := p
    by_cases h : k = n
    · simp [Registry.set, Registry.get?, h]
    · simp [Registry.set, Registry.get?, h, ih]

theorem Registry.get?_set_ne (r : Registry) (n m : String) (hs : List Hook)
    (h : m ≠ n) : (r.set n hs).get? m = r.get? m := by
  induction r with
  | nil => simp [Registry.set, Registry.get?, Ne.symm h]
  | cons p t ih =>
    obtain ⟨k, v⟩ := p
    by_cases hk : k = n
    · subst hk
      simp [Registry.set, Registry.get?, Ne.symm h]
    · simp [Registry.set, Registry.get?, hk, ih]

theorem Registry.get?_erase_self (r : Registry) (n : String) :
    (r.erase n).get? n = none := by
  induction r with
  | nil => simp [Registry.erase, Registry.get?]
  | cons p t ih =>
    obtain ⟨k, v⟩ := p
    by_cases h : k = n
    · simpa [Registry.erase, h] using ih
    · simp [Registry.erase, Registry.get?, h, ih]

theorem Registry.get?_erase_ne (r : Registry) (n m : String)
    (h : m ≠ n) : (r.erase n).get? m = r.get? m := by
  induction r with
  | nil => simp [Registry.erase]
  | cons p t ih =>
    obtain ⟨k, v⟩ := p
    by_cases hk : k = n
    · subst hk
      simp [Registry.erase, Registry.get?, Ne.symm h, ih]
    · simp [Registry.erase, Registry.get?, hk, ih]

theorem Registry.get?_mem (r : Registry) (n : String) (hs : List Hook)
    (h : r.get? n = some hs) : (n, hs) ∈ r := by
  induction r with
  | nil => simp [Registry.get?] at h
  | cons p t ih =>
    obtain ⟨k, v⟩ := p
    by_cases hk : k = n
    · subst hk
      simp [Registry.get?] at h
      simp [h]
    · simp [Registry.get?, hk] at h
      exact List.mem_cons_of_mem _ (ih h)

theorem runHooks_ok (hs : List Hook) (arg : String)
    (h : ∀ x ∈ hs, x.raises = false) :
    runHooks hs arg = (hs.map fun x => ⟨x.id, arg⟩, none) := by
  induction hs with
  | nil => simp [runHooks]
  | cons a t ih =>
    have ha : a.raises = false := h a (List.mem_cons_self a t)
    have ht : ∀ x ∈ t, x.raises = false := fun x hx => h x (List.mem_cons_of_mem _ hx)
    simp [runHooks, ha, ih ht]

/-- Unconditional description of `notify_module_import_error` when the
name has an entry of non-raising hooks: the hooks fire in order and the
same (non-empty-merged) entry is put back. -/
theorem notify_error_eq (s : HookState) (name : String) (hs : List Hook)
    (hhs : s.import_error_hooks.get? name = some hs)
    (hok : ∀ x ∈ hs, x.raises = false) :
    notify_module_import_error name s =
      ({ s with import_error_hooks :=
          (s.import_error_hooks.erase name).set name hs },
        hs.map (fun x => ⟨x.id, name⟩), none) := by
  unfold notify_module_import_error
  rw [hhs]
  simp only [runHooks_ok hs name hok, Registry.get?_erase_self, Option.getD_none,
    List.append_nil]

/-! ### Claims -/

/-- C1 as stated is false: when `"m"` already has a pending (non-empty)
pre-import hook entry, a second `register_pre_import_hook` call for `"m"`
raises nothing and appends to the pending sequence instead. -/
theorem C1_counterexample :
    ((register_pre_import_hook ⟨1, false⟩ "m" HookState.empty).1.pre_import_hooks.get? "m"
        = some [⟨1, false⟩]) ∧
    (register_pre_import_hook ⟨2, false⟩ "m"
        (register_pre_import_hook ⟨1, false⟩ "m" HookState.empty).1).2.2 = none ∧
    (register_pre_import_hook ⟨2, false⟩ "m"
        (register_pre_import_hook ⟨1, false⟩ "m" HookState.empty).1).1.pre_import_hooks.get? "m"
      = some [⟨1, false⟩, ⟨2, false⟩] := by
  decide

/-- C1 amended: registering a pre-load hook for a name that already has a
pending (non-empty) pre-load entry appends the hook to the pending
sequence and raises no error; the "already registered" conflict error is
not raised on that path. -/
theorem C1_amended (hook : Hook) (name : String) (s : HookState) (hs : List Hook)
    (hhs : s.pre_import_hooks.get? name = some hs) (hne : hs ≠ []) :
    (register_pre_import_hook hook name s).2.2 = none ∧
    (register_pre_import_hook hook name s).1.pre_import_hooks.get? name
      = some (hs ++ [hook]) := by
  obtain ⟨h0, t0, rfl⟩ : ∃ h0 t0, hs = h0 :: t0 := by
    cases hs with
    | nil => exact absurd rfl hne
    | cons a b => exact ⟨a, b, rfl⟩
  unfold register_pre_import_hook register_generic_import_hook
  rw [hhs]
  simp [Registry.get?_set_self]

/-- Witness for C1 amended at a concrete two-registration run. -/
theorem C1_witness :
    (register_pre_import_hook ⟨2, false⟩ "p"
        (register_pre_import_hook ⟨1, false⟩ "p" HookState.empty).1).2.2 = none ∧
    (register_pre_import_hook ⟨2, false⟩ "p"
        (register_pre_import_hook ⟨1, false⟩ "p" HookState.empty).1).1.pre_import_hooks.get? "p"
      = some ([⟨1, false⟩] ++ [⟨2, false⟩]) :=
  C1_amended ⟨2, false⟩ "p" _ [⟨1, false⟩] (by decide) (by decide)

/-- C2: for a module whose `__name__` has a non-empty pending success-hook
entry, one `notify_module_loaded` call replaces the entry with the empty
fired sentinel and invokes each pending hook exactly once in registration
order, and any subsequent success notification for that name invokes no
hooks. -/
theorem C2_success_hooks_fire_once (s : HookState) (mod : PyModule)
    (name : String) (hs : List Hook)
    (hname : mod.nameAttr = some name)
    (hhs : s.post_import_hooks.get? name = some hs) (hne : hs ≠ [])
    (hok : ∀ x ∈ hs, x.raises = false) :
    notify_module_loaded mod s =
      ({ s with post_import_hooks := s.post_import_hooks.set name [] },
        hs.map (fun x => ⟨x.id, name⟩), none) ∧
    ∀ mod2 : PyModule, mod2.nameAttr = some name →
      notify_module_loaded mod2 (notify_module_loaded mod s).1 =
        ((notify_module_loaded mod s).1, [], none) := by
  obtain ⟨h0, t0, rfl⟩ : ∃ h0 t0, hs = h0 :: t0 := by
    cases hs with
    | nil => exact absurd rfl hne
    | cons a b => exact ⟨a, b, rfl⟩
  have key : notify_module_loaded mod s =
      ({ s with post_import_hooks := s.post_import_hooks.set name [] },
        (h0 :: t0).map (fun x => ⟨x.id, name⟩), none) := by
    simp only [notify_module_loaded, hname, hhs, runHooks_ok (h0 :: t0) name hok]
  refine ⟨key, ?_⟩
  intro mod2 hm2
  rw [key]
  simp only [notify_module_loaded, hm2, Registry.get?_set_self]

/-- Witness for C2 with two pending hooks on `"m"`. -/
theorem C2_witness :
    notify_module_loaded ⟨some "m"⟩
        { HookState.empty with post_import_hooks := [("m", [⟨1, false⟩, ⟨2, false⟩])] } =
      ({ { HookState.empty with post_import_hooks := [("m", [⟨1, false⟩, ⟨2, false⟩])] } with
          post_import_hooks :=
            Registry.set [("m", [⟨1, false⟩, ⟨2, false⟩])] "m" [] },
        [⟨1, "m"⟩, ⟨2, "m"⟩], none) ∧
    ∀ mod2 : PyModule, mod2.nameAttr = some "m" →
      notify_module_loaded mod2
          (notify_module_loaded ⟨some "m"⟩
            { HookState.empty with post_import_hooks := [("m", [⟨1, false⟩, ⟨2, false⟩])] }).1 =
        ((notify_module_loaded ⟨some "m"⟩
            { HookState.empty with post_import_hooks := [("m", [⟨1, false⟩, ⟨2, false⟩])] }).1,
          [], none) :=
  C2_success_hooks_fire_once _ ⟨some "m"⟩ "m" [⟨1, false⟩, ⟨2, false⟩]
    rfl (by decide) (by decide) (by decide)

/-- C3: a failure notification for a name with a non-empty entry of
(non-raising) error hooks fires every one of them once, in order, with the
module name as argument; afterwards the same hooks are registered again
(in particular the entry is not the empty fired sentinel), so a second
failure notification re-fires them all. -/
theorem C3_error_hooks_refire (s : HookState) (name : String) (hs : List Hook)
    (hhs : s.import_error_hooks.get? name = some hs) (hne : hs ≠ [])
    (hok : ∀ x ∈ hs, x.raises = false) :
    (notify_module_import_error name s).2.1 = hs.map (fun x => ⟨x.id, name⟩) ∧
    (notify_module_import_error name s).2.2 = none ∧
    (notify_module_import_error name s).1.import_error_hooks.get? name = some hs ∧
    (notify_module_import_error name s).1.import_error_hooks.get? name ≠ some [] ∧
    (notify_module_import_error name
        (notify_module_import_error name s).1).2.1
      = hs.map (fun x => ⟨x.id, name⟩) := by
  have k1 := notify_error_eq s name hs hhs hok
  have hget : (notify_module_import_error name s).1.import_error_hooks.get? name
      = some hs := by
    rw [k1]
    exact Registry.get?_set_self _ _ _
  have k2 := notify_error_eq (notify_module_import_error name s).1 name hs hget hok
  refine ⟨by rw [k1], by rw [k1], hget, ?_, by rw [k2]⟩
  rw [hget]
  simp only [ne_eq, Option.some.injEq]
  exact hne

/-- Witness for C3 with one error hook on `"y"`. -/
theorem C3_witness :
    (notify_module_import_error "y"
        { HookState.empty with import_error_hooks := [("y", [⟨7, false⟩])] }).2.1
      = [⟨7, "y"⟩] ∧
    (notify_module_import_error "y"
        { HookState.empty with import_error_hooks := [("y", [⟨7, false⟩])] }).2.2 = none ∧
    (notify_module_import_error "y"
        { HookState.empty with import_error_hooks := [("y", [⟨7, false⟩])] }).1.import_error_hooks.get? "y"
      = some [⟨7, false⟩] ∧
    (notify_module_import_error "y"
        { HookState.empty with import_error_hooks := [("y", [⟨7, false⟩])] }).1.import_error_hooks.get? "y"
      ≠ some [] ∧
    (notify_module_import_error "y"
        (notify_module_import_error "y"
          { HookState.empty with import_error_hooks := [("y", [⟨7, false⟩])] }).1).2.1
      = [⟨7, "y"⟩] :=
  C3_error_hooks_refire _ "y" [⟨7, false⟩] (by decide) (by decide) (by decide)

/-- C4 as stated is false: registering an error hook for a name absent
from the error registry whose module is already loaded records the empty
fired sentinel but invokes nothing (empty trace), contrary to the claimed
synchronous firing. -/
theorem C4_counterexample :
    (register_import_error_hook ⟨1, false⟩ "m"
        { HookState.empty with sysModules := ["m"] }).1.import_error_hooks.get? "m"
      = some [] ∧
    (register_import_error_hook ⟨1, false⟩ "m"
        { HookState.empty with sysModules := ["m"] }).2.1 = [] ∧
    (register_import_error_hook ⟨1, false⟩ "m"
        { HookState.empty with sysModules := ["m"] }).2.2 = none := by
  decide

/-- C4 amended: registering an error hook for a name absent from the
error registry whose module is already loaded records the name as the
empty fired sentinel but does not invoke the callback (error hooks are
never fired during registration). -/
theorem C4_amended (hook : Hook) (name : String) (s : HookState)
    (habs : s.import_error_hooks.get? name = none)
    (hload : name ∈ s.sysModules) :
    (register_import_error_hook hook name s).1.import_error_hooks.get? name
      = some [] ∧
    (register_import_error_hook hook name s).2.1 = [] ∧
    (register_import_error_hook hook name s).2.2 = none := by
  unfold register_import_error_hook register_generic_import_hook
  rw [habs]
  simp [hload, Registry.get?_set_self]

/-- Witness for C4 amended. -/
theorem C4_witness :
    (register_import_error_hook ⟨2, false⟩ "w"
        { HookState.empty with sysModules := ["w"] }).1.import_error_hooks.get? "w"
      = some [] ∧
    (register_import_error_hook ⟨2, false⟩ "w"
        { HookState.empty with sysModules := ["w"] }).2.1 = [] ∧
    (register_import_error_hook ⟨2, false⟩ "w"
        { HookState.empty with sysModules := ["w"] }).2.2 = none :=
  C4_amended ⟨2, false⟩ "w" _ (by decide) (by decide)

/-- C6: registering a success hook for a name whose module is already in
`sys.modules` invokes that hook synchronously (it is the one invocation of
the call's trace), both when the name is absent from the success registry
and when it is the empty fired sentinel; afterwards the entry is the
fired sentinel. -/
theorem C6_register_on_loaded_fires_now (hook : Hook) (name : String)
    (s : HookState) (hload : name ∈ s.sysModules)
    (hentry : s.post_import_hooks.get? name = none ∨
      s.post_import_hooks.get? name = some []) :
    (register_post_import_hook hook name s).2.1 = [⟨hook.id, name⟩] ∧
    (register_post_import_hook hook name s).1.post_import_hooks.get? name
      = some [] := by
  unfold register_post_import_hook register_generic_import_hook
  rcases hentry with h | h <;> rw [h]
  · cases hr : hook.raises <;> simp [hload, hr, Registry.get?_set_self]
  · cases hr : hook.raises <;> simp [hload, hr, h]

/-- Witness for C6 in both the absent and the fired-sentinel situations
(second registration lands on the sentinel left by the first). -/
theorem C6_witness :
    (register_post_import_hook ⟨5, false⟩ "m"
        { HookState.empty with sysModules := ["m"] }).2.1 = [⟨5, "m"⟩] ∧
    (register_post_import_hook ⟨5, false⟩ "m"
        { HookState.empty with sysModules := ["m"] }).1.post_import_hooks.get? "m"
      = some [] :=
  C6_register_on_loaded_fires_now ⟨5, false⟩ "m" _ (by decide) (Or.inl (by decide))

/-- C7: when the requested name is already in the thread's in-progress
set, `find_spec` declines (returns `None`) with no state change, no hook
invocation and no exception. -/
theorem C7_in_progress_declines (env : String → Option ModuleSpec)
    (fullname : String) (s : HookState) (h : fullname ∈ s.inProgress) :
    ImportHookFinder.findSpec env fullname s = (none, s, [], none) := by
  unfold ImportHookFinder.findSpec
  split <;> simp_all

/-- Witness for C7: `"m"` has a pending pre-hook but is in progress, so
the interceptor declines without firing it. -/
theorem C7_witness :
    ImportHookFinder.findSpec (fun _ => none) "m"
        { HookState.empty with
            inProgress := ["m"]
            pre_import_hooks := [("m", [⟨1, false⟩])] } =
      (none,
        { HookState.empty with
            inProgress := ["m"]
            pre_import_hooks := [("m", [⟨1, false⟩])] }, [], none) :=
  C7_in_progress_declines (fun _ => none) "m" _ (by decide)

/-- C8: when the requested name is absent from all three registries,
`find_spec` declines (returns `None`) with no state change, no hook
invocation and no exception. -/
theorem C8_unregistered_noop (env : String → Option ModuleSpec)
    (fullname : String) (s : HookState)
    (h1 : s.post_import_hooks.get? fullname = none)
    (h2 : s.pre_import_hooks.get? fullname = none)
    (h3 : s.import_error_hooks.get? fullname = none) :
    ImportHookFinder.findSpec env fullname s = (none, s, [], none) := by
  unfold ImportHookFinder.findSpec
  rw [if_pos]
  exact ⟨by rw [h1]; rfl, by rw [h2]; rfl, by rw [h3]; rfl⟩

/-- Witness for C8 on a state instrumenting a different name only. -/
theorem C8_witness :
    ImportHookFinder.findSpec (fun _ => none) "m"
        { HookState.empty with post_import_hooks := [("other", [⟨1, false⟩])] } =
      (none,
        { HookState.empty with post_import_hooks := [("other", [⟨1, false⟩])] },
        [], none) :=
  C8_unregistered_noop (fun _ => none) "m" _ (by decide) (by decide) (by decide)

/-- C10: a success notification for a module object without a usable
`__name__` returns immediately: no hook invoked, no registry modified. -/
theorem C10_no_name_noop (mod : PyModule) (s : HookState)
    (h : mod.nameAttr = none) :
    notify_module_loaded mod s = (s, [], none) := by
  unfold notify_module_loaded
  rw [h]

/-- Witness for C10 on a state with pending success hooks. -/
theorem C10_witness :
    notify_module_loaded ⟨none⟩
        { HookState.empty with post_import_hooks := [("m", [⟨1, false⟩])] } =
      ({ HookState.empty with post_import_hooks := [("m", [⟨1, false⟩])] },
        [], none) :=
  C10_no_name_noop ⟨none⟩ _ rfl

/-- C9: an intercepted resolution request for a name with a pending
pre-import entry fires all the pending pre-import hooks (raising ones
included — their exceptions are swallowed) and then still delegates: the
returned spec, the resulting error and the remaining state are exactly
those of `_find_and_possibly_instrument_spec` on the drained state, with
the pre-hook invocations preceding the delegate's in the trace. -/
theorem C9_pre_hooks_drain_then_delegate (env : String → Option ModuleSpec)
    (fullname : String) (s s2 : HookState) (hs : List Hook)
    (hpre : s.pre_import_hooks.get? fullname = some hs)
    (hnotin : fullname ∉ s.inProgress)
    (h2 : s2 = { s with
        inProgress := fullname :: s.inProgress
        pre_import_hooks := s.pre_import_hooks.erase fullname }) :
    (ImportHookFinder.findSpec env fullname s).2.2.1 =
      hs.map (fun h => ⟨h.id, fullname⟩) ++
        (find_and_possibly_instrument_spec env fullname s2).2.2.1 ∧
    (ImportHookFinder.findSpec env fullname s).1 =
      (find_and_possibly_instrument_spec env fullname s2).1 ∧
    (ImportHookFinder.findSpec env fullname s).2.2.2 =
      (find_and_possibly_instrument_spec env fullname s2).2.2.2 ∧
    (ImportHookFinder.findSpec env fullname s).2.1 =
      { (find_and_possibly_instrument_spec env fullname s2).2.1 with
          inProgress :=
            ((find_and_possibly_instrument_spec env fullname s2).2.1).inProgress.erase fullname } := by
  subst h2
  have hc : ¬((s.post_import_hooks.get? fullname).isNone = true ∧
      (s.pre_import_hooks.get? fullname).isNone = true ∧
      (s.import_error_hooks.get? fullname).isNone = true) := by
    rw [hpre]; simp
  rcases hfd : find_and_possibly_instrument_spec env fullname
      { s with
          inProgress := fullname :: s.inProgress
          pre_import_hooks := s.pre_import_hooks.erase fullname }
    with ⟨res, s3, tr2, e⟩
  unfold ImportHookFinder.findSpec
  rw [if_neg hc, if_neg hnotin]
  simp only [hpre] at *
  simp [hfd]

/-- Witness for C9: both pre-hooks (the first of which raises) are fired,
then the load is delegated. -/
theorem C9_witness :
    (ImportHookFinder.findSpec c9env "m" c9s).2.2.1 =
      ([⟨1, true⟩, ⟨2, false⟩] : List Hook).map (fun h => ⟨h.id, "m"⟩) ++
        (find_and_possibly_instrument_spec c9env "m" c9s2).2.2.1 ∧
    (ImportHookFinder.findSpec c9env "m" c9s).1 =
      (find_and_possibly_instrument_spec c9env "m" c9s2).1 ∧
    (ImportHookFinder.findSpec c9env "m" c9s).2.2.2 =
      (find_and_possibly_instrument_spec c9env "m" c9s2).2.2.2 ∧
    (ImportHookFinder.findSpec c9env "m" c9s).2.1 =
      { (find_and_possibly_instrument_spec c9env "m" c9s2).2.1 with
          inProgress :=
            ((find_and_possibly_instrument_spec c9env "m" c9s2).2.1).inProgress.erase "m" } :=
  C9_pre_hooks_drain_then_delegate c9env "m" c9s c9s2 [⟨1, true⟩, ⟨2, false⟩]
    (by decide) (by decide) (by decide)

/-! ### Lemmas for the registry lifecycle invariant -/

/-- `register_generic_import_hook` never decreases any entry's lifecycle
rank in the dictionary it operates on. -/
theorem register_rank_mono (hook : Hook) (name : String) (d : Registry)
    (sys : List String) (eh rr : Bool) (n : String) :
    entryRank (d.get? n) ≤
      entryRank ((register_generic_import_hook hook name d sys eh rr).1.get? n) := by
  unfold register_generic_import_hook
  by_cases hn : n = name
  · subst hn
    cases hd : d.get? n with
    | none => exact Nat.zero_le _
    | some hs =>
      cases hs with
      | nil =>
        by_cases hm : n ∈ sys <;> cases eh <;> cases hraise : hook.raises <;>
          simp [hm, hd, entryRank]
      | cons a t =>
        simp [Registry.get?_set_self, hd, entryRank]
  · have hne : ∀ v, (d.set name v).get? n = d.get? n :=
      fun v => Registry.get?_set_ne _ _ _ _ hn
    cases hd : d.get? name with
    | none =>
      cases eh <;> cases rr <;> cases hraise : hook.raises <;>
        by_cases hm : name ∈ sys <;> simp [hm, hne]
    | some hs =>
      cases hs with
      | nil =>
        cases eh <;> cases hraise : hook.raises <;>
          by_cases hm : name ∈ sys <;> simp [hm, hne]
      | cons a t =>
        simp [hne]

/-- `notify_module_import_error` leaves the success and pre-import
registries untouched. -/
theorem notify_error_post_pre (name : String) (s : HookState) :
    (notify_module_import_error name s).1.post_import_hooks = s.post_import_hooks ∧
    (notify_module_import_error name s).1.pre_import_hooks = s.pre_import_hooks := by
  cases hd : s.import_error_hooks.get? name with
  | none =>
    simp [notify_module_import_error, hd]
  | some hs =>
    rcases hr : runHooks hs name with ⟨tr, e⟩
    cases e <;> simp [notify_module_import_error, hd, hr]

/-- With non-raising error hooks, `notify_module_import_error` never
decreases an error-registry entry's lifecycle rank. -/
theorem notify_error_rank_mono (name : String) (s : HookState) (n : String)
    (hok : hooksOk s.import_error_hooks) :
    entryRank (s.import_error_hooks.get? n) ≤
      entryRank ((notify_module_import_error name s).1.import_error_hooks.get? n) := by
  cases hd : s.import_error_hooks.get? name with
  | none =>
    unfold notify_module_import_error
    rw [hd]
  | some hs =>
    have hh : ∀ x ∈ hs, x.raises = false :=
      fun x hx => hok (name, hs) (Registry.get?_mem _ _ _ hd) x hx
    rw [notify_error_eq s name hs hd hh]
    by_cases hn : n = name
    · subst hn
      simp [Registry.get?_set_self, hd]
    · simp [Registry.get?_set_ne _ _ _ _ hn, Registry.get?_erase_ne _ _ _ hn]

/-- `notify_module_loaded` leaves the pre-import and error registries
untouched. -/
theorem notify_loaded_fields (mod : PyModule) (s : HookState) :
    (notify_module_loaded mod s).1.pre_import_hooks = s.pre_import_hooks ∧
    (notify_module_loaded mod s).1.import_error_hooks = s.import_error_hooks := by
  cases hm : mod.nameAttr with
  | none =>
    simp [notify_module_loaded, hm]
  | some name =>
    cases hd : s.post_import_hooks.get? name with
    | none =>
      simp [notify_module_loaded, hm, hd]
    | some hs =>
      cases hs with
      | nil =>
        simp [notify_module_loaded, hm, hd]
      | cons a t =>
        rcases hr : runHooks (a :: t) name with ⟨tr, e⟩
        simp [notify_module_loaded, hm, hd, hr]

/-- `notify_module_loaded` never decreases a success-registry entry's
lifecycle rank (pending entries are swapped to the fired sentinel). -/
theorem notify_loaded_post_rank (mod : PyModule) (s : HookState) (n : String) :
    entryRank (s.post_import_hooks.get? n) ≤
      entryRank ((notify_module_loaded mod s).1.post_import_hooks.get? n) := by
  cases hm : mod.nameAttr with
  | none =>
    simp [notify_module_loaded, hm]
  | some name =>
    cases hd : s.post_import_hooks.get? name with
    | none =>
      simp [notify_module_loaded, hm, hd]
    | some hs =>
      cases hs with
      | nil =>
        simp [notify_module_loaded, hm, hd]
      | cons a t =>
        rcases hr : runHooks (a :: t) name with ⟨tr, e⟩
        simp only [notify_module_loaded, hm, hd, hr]
        by_cases hn : n = name
        · subst hn
          simp [Registry.get?_set_self, hd, entryRank]
        · simp [Registry.get?_set_ne _ _ _ _ hn]

/-- `_find_and_possibly_instrument_spec` leaves the success and pre-import
registries untouched. -/
theorem fapis_post_pre (env : String → Option ModuleSpec) (n' : String)
    (s : HookState) :
    (find_and_possibly_instrument_spec env n' s).2.1.post_import_hooks
      = s.post_import_hooks ∧
    (find_and_possibly_instrument_spec env n' s).2.1.pre_import_hooks
      = s.pre_import_hooks := by
  unfold find_and_possibly_instrument_spec
  split
  · exact ⟨rfl, rfl⟩
  · cases he : env n' with
    | none =>
      rcases hn : notify_module_import_error n' s with ⟨s1, tr, e⟩
      have h := notify_error_post_pre n' s
      rw [hn] at h
      simpa [hn] using h
    | some spec => simp

/-- With non-raising error hooks, `_find_and_possibly_instrument_spec`
never decreases an error-registry entry's lifecycle rank. -/
theorem fapis_error_rank (env : String → Option ModuleSpec) (n' : String)
    (s : HookState) (n : String) (hok : hooksOk s.import_error_hooks) :
    entryRank (s.import_error_hooks.get? n) ≤
      entryRank ((find_and_possibly_instrument_spec env n' s).2.1.import_error_hooks.get? n) := by
  unfold find_and_possibly_instrument_spec
  split
  · exact Nat.le_refl _
  · cases he : env n' with
    | none =>
      rcases hn : notify_module_import_error n' s with ⟨s1, tr, e⟩
      have h := notify_error_rank_mono n' s n hok
      rw [hn] at h
      simpa [hn] using h
    | some spec => simp

/-- `find_spec` leaves the success registry untouched and, with
non-raising error hooks, never decreases an error-registry entry's rank. -/
theorem findSpec_post_error (env : String → Option ModuleSpec) (n' : String)
    (s : HookState) (n : String) (hok : hooksOk s.import_error_hooks) :
    (ImportHookFinder.findSpec env n' s).2.1.post_import_hooks
      = s.post_import_hooks ∧
    entryRank (s.import_error_hooks.get? n) ≤
      entryRank ((ImportHookFinder.findSpec env n' s).2.1.import_error_hooks.get? n) := by
  unfold ImportHookFinder.findSpec
  split
  · exact ⟨rfl, Nat.le_refl _⟩
  · split
    · exact ⟨rfl, Nat.le_refl _⟩
    · rcases hf : find_and_possibly_instrument_spec env n'
          { s with
              inProgress := n' :: s.inProgress
              pre_import_hooks := s.pre_import_hooks.erase n' }
        with ⟨res, s3, tr2, e⟩
      have hpp := fapis_post_pre env n'
          { s with
              inProgress := n' :: s.inProgress
              pre_import_hooks := s.pre_import_hooks.erase n' }
      have her := fapis_error_rank env n'
          { s with
              inProgress := n' :: s.inProgress
              pre_import_hooks := s.pre_import_hooks.erase n' } n hok
      rw [hf] at hpp her
      constructor
      · simp only [hf]
        simpa using hpp.1
      · simp only [hf]
        simpa using her

/-- C5 as stated is false: after a pre-import hook registration makes the
pre registry entry for `"m"` non-empty (a reachable state), one intercepted
resolution of `"m"` transitions that entry backward from non-empty to
absent (the drain pops the key without leaving the fired sentinel). -/
theorem C5_counterexample :
    ((register_pre_import_hook ⟨1, false⟩ "m" HookState.empty).1.pre_import_hooks.get? "m"
      = some [⟨1, false⟩]) ∧
    ((ImportHookFinder.findSpec (fun _ => none) "m"
        (register_pre_import_hook ⟨1, false⟩ "m" HookState.empty).1).2.1.pre_import_hooks.get? "m"
      = none) := by
  decide

/-- C5 amended: for the success and error registries every operation
(registration of any kind, success notification, failure notification,
interception) moves each name's entry only forward along
absent → non-empty → empty-sequence (assuming registered error hooks do
not raise, since a raising error hook aborts the failure path before the
re-insert); the pre-load registry also only moves forward under every
operation except interception, which removes the drained name's entry
entirely (non-empty back to absent) instead of leaving the fired
sentinel. -/
theorem C5_amended (op : Op) (s : HookState) (n : String)
    (hok : hooksOk s.import_error_hooks) :
    entryRank (s.post_import_hooks.get? n) ≤
      entryRank ((op.step s).post_import_hooks.get? n) ∧
    entryRank (s.import_error_hooks.get? n) ≤
      entryRank ((op.step s).import_error_hooks.get? n) ∧
    (op.isIntercept = false →
      entryRank (s.pre_import_hooks.get? n) ≤
        entryRank ((op.step s).pre_import_hooks.get? n)) := by
  cases op with
  | regPost hook name =>
    rcases hg : register_generic_import_hook hook name s.post_import_hooks
        s.sysModules false false with ⟨reg, tr, e⟩
    have hm := register_rank_mono hook name s.post_import_hooks s.sysModules false false n
    rw [hg] at hm
    refine ⟨?_, ?_, fun _ => ?_⟩ <;> simp [Op.step, register_post_import_hook, hg]
    exact hm
  | regError hook name =>
    rcases hg : register_generic_import_hook hook name s.import_error_hooks
        s.sysModules true false with ⟨reg, tr, e⟩
    have hm := register_rank_mono hook name s.import_error_hooks s.sysModules true false n
    rw [hg] at hm
    refine ⟨?_, ?_, fun _ => ?_⟩ <;> simp [Op.step, register_import_error_hook, hg]
    exact hm
  | regPre hook name =>
    rcases hg : register_generic_import_hook hook name s.pre_import_hooks
        s.sysModules false true with ⟨reg, tr, e⟩
    have hm := register_rank_mono hook name s.pre_import_hooks s.sysModules false true n
    rw [hg] at hm
    refine ⟨?_, ?_, fun _ => ?_⟩ <;> simp [Op.step, register_pre_import_hook, hg]
    exact hm
  | notifyLoaded m =>
    refine ⟨?_, ?_, fun _ => ?_⟩
    · simpa [Op.step] using notify_loaded_post_rank m s n
    · have h := (notify_loaded_fields m s).2
      simp [Op.step, h]
    · have h := (notify_loaded_fields m s).1
      simp [Op.step, h]
  | notifyError name =>
    refine ⟨?_, ?_, fun _ => ?_⟩
    · have h := (notify_error_post_pre name s).1
      simp [Op.step, h]
    · simpa [Op.step] using notify_error_rank_mono name s n hok
    · have h := (notify_error_post_pre name s).2
      simp [Op.step, h]
  | intercept env name =>
    refine ⟨?_, ?_, fun hI => ?_⟩
    · have h := (findSpec_post_error env name s n hok).1
      simp [Op.step, h]
    · simpa [Op.step] using (findSpec_post_error env name s n hok).2
    · simp [Op.isIntercept] at hI

/-- Witness for C5 amended: a success notification on a state with one
pending success hook and one pending (non-raising) error hook. -/
theorem C5_witness :
    entryRank (c5s.post_import_hooks.get? "m") ≤
      entryRank (((Op.notifyLoaded ⟨some "m"⟩).step c5s).post_import_hooks.get? "m") ∧
    entryRank (c5s.import_error_hooks.get? "m") ≤
      entryRank (((Op.notifyLoaded ⟨some "m"⟩).step c5s).import_error_hooks.get? "m") ∧
    ((Op.notifyLoaded (⟨some "m"⟩ : PyModule)).isIntercept = false →
      entryRank (c5s.pre_import_hooks.get? "m") ≤
        entryRank (((Op.notifyLoaded ⟨some "m"⟩).step c5s).pre_import_hooks.get? "m")) :=
  C5_amended (Op.notifyLoaded ⟨some "m"⟩) c5s "m" (by decide)
